import Mathlib

/-!
Verification of `rumoureval/classification/sdqc.py`.

The file embeds the SDQC classification stage of the rumoureval repository:
the training filter `filter_tweets` (with its per-call root-text cache), the
one-vs-rest relabeler `generate_one_vs_rest_annotations`, the per-message
ensemble combination loop of `sdqc` (producing the without-deny and with-deny
prediction sequences), and the accuracy-based selection between the two
strategies.  External collaborators (text normalization, the two-document
tf-idf cosine similarity, the accuracy metric) are modelled from the
specification, as noted on each definition.
-/

namespace RumourEval

/-- The four SDQC stance classes (`CLASSES` in `sdqc.py`). -/
def CLASSES : List String := ["comment", "deny", "query", "support"]

/-- A message (tweet): an identifier, its normalized text, and either no
parent (a thread root) or a parent message.  The parent chain of a message is
finite and acyclic, matching the thread tree of the data model. -/
inductive Tweet where
  | root (id : Nat) (text : String)
  | reply (id : Nat) (text : String) (parent : Tweet)
deriving DecidableEq

/-- Identifier of a tweet (`tweet['id']` / `tweet['id_str']`). -/
def Tweet.id : Tweet → Nat
  | .root i _ => i
  | .reply i _ _ => i

/-- Normalized text of a tweet (see `get_parseable_tweet_text`). -/
def Tweet.text : Tweet → String
  | .root _ x => x
  | .reply _ x _ => x

/-- Parent lookup (`tweet.parent()`): `none` for a thread root. -/
def Tweet.parent : Tweet → Option Tweet
  | .root _ _ => none
  | .reply _ _ p => some p

/-- Root resolution: `while root_tweet.parent() is not None: root_tweet =
root_tweet.parent()` (`sdqc.py` lines 48-50). -/
def root_tweet : Tweet → Tweet
  | .root i x => .root i x
  | .reply _ _ p => root_tweet p

/-- Modelled from the spec: `TweetDetailExtractor.get_parseable_tweet_text`
lives outside `src/` (external normalization, spec section 6); the model takes
each message's normalized text as a given field of the message. -/
def get_parseable_tweet_text (t : Tweet) : String := t.text

/-- Field splitting at separator characters, with the semantics of Python's
`str.split(sep)` for a one-character separator: consecutive separators yield
empty fields, and the empty text yields one empty field.  Texts and fields
are character lists. -/
def split_chars (p : Char → Bool) : List Char → List (List Char)
  | [] => [[]]
  | c :: cs =>
    if p c then [] :: split_chars p cs
    else
      match split_chars p cs with
      | [] => [[c]]
      | w :: ws => (c :: w) :: ws

/-- Modelled from the spec: a word character for the default token pattern of
the external term-weighting vectorizer (alphanumeric or underscore). -/
def is_word_char (c : Char) : Bool := c.isAlphanum || c == '_'

/-- Modelled from the spec: tokenization used by the external term-weighting
vectorizer: lowercase, split at non-word characters, keep tokens of at least
two characters. -/
def tokenize (s : String) : List (List Char) :=
  (split_chars (fun c => !(is_word_char c)) (s.data.map Char.toLower)).filter
    (fun w => 2 ≤ w.length)

/-- Modelled from the spec: raw term frequency of term `t` in document `d`
(documents are token lists). -/
def term_count (d : List (List Char)) (t : List Char) : Nat := d.count t

/-- Modelled from the spec: document frequency of term `t` over the
two-document corpus `{d1, d2}` built solely from the root text and the
message text. -/
def doc_freq (d1 d2 : List (List Char)) (t : List Char) : Nat :=
  (if t ∈ d1 then 1 else 0) + (if t ∈ d2 then 1 else 0)

/-- Modelled from the spec: smoothed inverse document frequency over the
two-document corpus, `log((1 + n) / (1 + df)) + 1` with `n = 2`. -/
noncomputable def idf (d1 d2 : List (List Char)) (t : List Char) : ℝ :=
  Real.log (3 / (1 + (doc_freq d1 d2 t : ℝ))) + 1

/-- Modelled from the spec: term weight of `t` in document `d`, relative to
the two-document corpus `{d1, d2}`. -/
noncomputable def tfidf_weight (d1 d2 d : List (List Char)) (t : List Char) : ℝ :=
  (term_count d t : ℝ) * idf d1 d2 t

/-- Modelled from the spec: dot product of the term-weighted vectors of
documents `a` and `b` over the vocabulary of the two-document corpus. -/
noncomputable def tfidf_dot (d1 d2 a b : List (List Char)) : ℝ :=
  ∑ t ∈ (d1 ++ d2).toFinset, tfidf_weight d1 d2 a t * tfidf_weight d1 d2 b t

/-- Modelled from the spec: cosine similarity between the term-weighted
(document-frequency-normalized) vectors of the two texts, the external
computation invoked at `sdqc.py` lines 70-73.  Division by a zero norm (both
texts token-less) yields `0` in this model; the external library refuses an
empty vocabulary instead, aborting the run. -/
noncomputable def tfidf_cosine_similarity (s1 s2 : String) : ℝ :=
  tfidf_dot (tokenize s1) (tokenize s2) (tokenize s1) (tokenize s2) /
    (Real.sqrt (tfidf_dot (tokenize s1) (tokenize s2) (tokenize s1) (tokenize s1)) *
      Real.sqrt (tfidf_dot (tokenize s1) (tokenize s2) (tokenize s2) (tokenize s2)))

/-- Root-text lookup against the cache (`sdqc.py` lines 58-60): the cached
text for the root's id if present, else the root's normalized text. -/
def cached_root_text (root_cache : List (Nat × String)) (tweet : Tweet) : String :=
  match root_cache.lookup (root_tweet tweet).id with
  | some cached => cached
  | none => get_parseable_tweet_text (root_tweet tweet)

/-- Body of the loop of `filter_tweets` (`sdqc.py` lines 46-77), carrying the
root-text cache (keyed by root id) through the traversal.  A root message is
appended unconditionally; a non-root message is dropped when `filter_short`
is set and its text splits at single spaces into fewer than 3 fields, and
otherwise appended exactly when its similarity to the (cached) root text is
below the threshold. -/
noncomputable def filter_go (filter_short : Bool) (similarity_threshold : ℝ) :
    List (Nat × String) → List Tweet → List Tweet
  | _, [] => []
  | root_cache, tweet :: rest =>
    if root_tweet tweet = tweet then
      tweet :: filter_go filter_short similarity_threshold root_cache rest
    else if filter_short ∧
        (split_chars (· == ' ') (get_parseable_tweet_text tweet).data).length < 3 then
      filter_go filter_short similarity_threshold
        (((root_tweet tweet).id, cached_root_text root_cache tweet) :: root_cache) rest
    else if tfidf_cosine_similarity (cached_root_text root_cache tweet)
        (get_parseable_tweet_text tweet) < similarity_threshold then
      tweet :: filter_go filter_short similarity_threshold
        (((root_tweet tweet).id, cached_root_text root_cache tweet) :: root_cache) rest
    else
      filter_go filter_short similarity_threshold
        (((root_tweet tweet).id, cached_root_text root_cache tweet) :: root_cache) rest

/-- The training filter `filter_tweets` (`sdqc.py` lines 25-77), starting
from an empty root-text cache.  The source defaults are `filter_short =
False` and `similarity_threshold = 0.9`. -/
noncomputable def filter_tweets (tweets : List Tweet) (filter_short : Bool)
    (similarity_threshold : ℝ) : List Tweet :=
  filter_go filter_short similarity_threshold [] tweets

/-- The ensemble combination loop of `sdqc` (`sdqc.py` lines 302-317): walks
the three prediction sequences in lockstep over `range(len(base_predictions))`
and builds the without-deny and with-deny sequences.  Indexing past the end
of the deny or query sequence is an error in the source (`IndexError`),
modelled as `none`. -/
def combine_predictions : List String → List String → List String →
    Option (List String × List String)
  | [], _, _ => some ([], [])
  | base :: base_rest, deny :: deny_rest, query :: query_rest =>
    match combine_predictions base_rest deny_rest query_rest with
    | some (wo, w) =>
      some ((if base = "comment" then "comment"
             else if query = "query" then "query" else base) :: wo,
            (if query = "query" then "query"
             else if deny = "deny" then "deny" else base) :: w)
    | none => none
  | _ :: _, _, _ => none

/-- Modelled from the spec: the external accuracy metric of section 4.5,
the fraction of positions where prediction and gold label agree. -/
def accuracy_score (y_true y_pred : List String) : ℚ :=
  (((y_true.zip y_pred).countP (fun p => p.1 == p.2) : ℕ) : ℚ) / (y_true.length : ℚ)

/-- Strategy selection (`sdqc.py` line 349): the with-deny sequence exactly
when its accuracy against the gold base labels is strictly higher, else the
without-deny sequence. -/
def select_predictions (y_eval_base wo_deny w_deny : List String) : List String :=
  if accuracy_score y_eval_base wo_deny < accuracy_score y_eval_base w_deny
  then w_deny else wo_deny

/-- The label relabeler `generate_one_vs_rest_annotations` (`sdqc.py` lines
359-375): per id, keep the gold label when it equals `one`, else emit
`"not_" ++ one`.  The annotation dict is modelled as an association list. -/
def generate_one_vs_rest_annotations (annotations : List (String × String))
    (one : String) : List (String × String) :=
  annotations.map (fun p => (p.1, if p.2 = one then p.2 else "not_" ++ one))

/-- The claim's reading of a whitespace token count: maximal nonempty runs
separated by any whitespace (stated from the spec's words, for comparison
with the source's split at single spaces). -/
def whitespace_tokens (s : String) : List (List Char) :=
  (split_chars (fun c => c.isWhitespace) s.data).filter (fun w => w ≠ [])

/-- Consistency of root identifiers over an input list (data-model invariant
of spec section 3: an identifier determines a message): roots with equal ids
have equal texts. -/
def root_id_consistent (tweets : List Tweet) : Prop :=
  ∀ t ∈ tweets, ∀ u ∈ tweets, (root_tweet t).id = (root_tweet u).id →
    (root_tweet t).text = (root_tweet u).text

/-- Invariant of the root-text cache during `filter_go`: every entry records
the id and text of the root of some message of the full input list. -/
def cache_ok (tweets0 : List Tweet) (root_cache : List (Nat × String)) : Prop :=
  ∀ e ∈ root_cache, ∃ u ∈ tweets0, (root_tweet u).id = e.1 ∧ (root_tweet u).text = e.2

/-- The relabeled value `"not_" ++ one` never equals `one` (it is four
characters longer). -/
theorem not_append_ne (one : String) : "not_" ++ one ≠ one := by
  intro h
  have hl := congrArg String.length h
  rw [String.length_append] at hl
  have h4 : ("not_" : String).length = 4 := rfl
  omega

/-- C1: for every ordered evaluation set, the without-deny ensemble strategy
computes, per message: if Base predicts `comment` the final label is
`comment` (regardless of the Deny- and Query-detector outputs); otherwise if
the Query-detector predicts `query` the final label is `query`; otherwise the
final label is Base's prediction. -/
theorem c1_without_deny_per_message (base deny query wo w : List String)
    (hc : combine_predictions base deny query = some (wo, w))
    (i : Nat) (b q : String) (hb : base[i]? = some b) (hq : query[i]? = some q) :
    (b = "comment" → wo[i]? = some "comment") ∧
    (b ≠ "comment" → q = "query" → wo[i]? = some "query") ∧
    (b ≠ "comment" → q ≠ "query" → wo[i]? = some b) := by
  induction base generalizing deny query wo w i with
  | nil => simp at hb
  | cons bh bt ih =>
    cases deny with
    | nil => simp [combine_predictions] at hc
    | cons dh dt =>
      cases query with
      | nil => simp [combine_predictions] at hc
      | cons qh qt =>
        simp only [combine_predictions] at hc
        cases hrec : combine_predictions bt dt qt with
        | none => rw [hrec] at hc; simp at hc
        | some pr =>
          obtain ⟨wo1, w1⟩ := pr
          rw [hrec] at hc
          simp only [Option.some.injEq, Prod.mk.injEq] at hc
          obtain ⟨hwo, hw⟩ := hc
          cases i with
          | zero =>
            simp only [List.getElem?_cons_zero, Option.some.injEq] at hb hq
            subst hb; subst hq; subst hwo
            refine ⟨fun h => ?_, fun h1 h2 => ?_, fun h1 h2 => ?_⟩
            · simp [h]
            · simp [h1, h2]
            · simp [h1, h2]
          | succ n =>
            subst hwo
            simp only [List.getElem?_cons_succ] at hb hq ⊢
            exact ih dt qt wo1 w1 hrec n hb hq

/-- Witness for C1 at a concrete input. -/
theorem c1_witness : (["query", "comment"] : List String)[1]? = some "comment" :=
  (c1_without_deny_per_message ["support", "comment"] ["not_deny", "not_deny"]
    ["query", "query"] ["query", "comment"] ["query", "query"] (by decide) 1
    "comment" "query" (by decide) (by decide)).1 rfl

/-- C2: for every ordered evaluation set, the with-deny ensemble strategy
computes, per message, the priority order Query over Deny over Base: if the
Query-detector predicts `query` the final label is `query`; otherwise if the
Deny-detector predicts `deny` the final label is `deny`; otherwise the final
label is Base's prediction. -/
theorem c2_with_deny_per_message (base deny query wo w : List String)
    (hc : combine_predictions base deny query = some (wo, w))
    (i : Nat) (b d q : String) (hb : base[i]? = some b) (hd : deny[i]? = some d)
    (hq : query[i]? = some q) :
    (q = "query" → w[i]? = some "query") ∧
    (q ≠ "query" → d = "deny" → w[i]? = some "deny") ∧
    (q ≠ "query" → d ≠ "deny" → w[i]? = some b) := by
  induction base generalizing deny query wo w i with
  | nil => simp at hb
  | cons bh bt ih =>
    cases deny with
    | nil => simp [combine_predictions] at hc
    | cons dh dt =>
      cases query with
      | nil => simp [combine_predictions] at hc
      | cons qh qt =>
        simp only [combine_predictions] at hc
        cases hrec : combine_predictions bt dt qt with
        | none => rw [hrec] at hc; simp at hc
        | some pr =>
          obtain ⟨wo1, w1⟩ := pr
          rw [hrec] at hc
          simp only [Option.some.injEq, Prod.mk.injEq] at hc
          obtain ⟨hwo, hw⟩ := hc
          cases i with
          | zero =>
            simp only [List.getElem?_cons_zero, Option.some.injEq] at hb hd hq
            subst hb; subst hd; subst hq; subst hw
            refine ⟨fun h => ?_, fun h1 h2 => ?_, fun h1 h2 => ?_⟩
            · simp [h]
            · simp [h1, h2]
            · simp [h1, h2]
          | succ n =>
            subst hw
            simp only [List.getElem?_cons_succ] at hb hd hq ⊢
            exact ih dt qt wo1 w1 hrec n hb hd hq

/-- Witness for C2 at a concrete input. -/
theorem c2_witness : (["deny"] : List String)[0]? = some "deny" :=
  (c2_with_deny_per_message ["support"] ["deny"] ["not_query"] ["support"] ["deny"]
    (by decide) 0 "support" "deny" "not_query" (by decide) (by decide)
    (by decide)).2.1 (by decide) rfl

/-- C3: strategy selection is a deterministic function of the two accuracy
scores against the gold base labels: the with-deny output is returned exactly
when its accuracy is strictly higher; on an exact tie (and when without-deny
scores strictly higher) the without-deny output is returned. -/
theorem c3_strategy_selection (y wo_deny w_deny : List String) :
    (accuracy_score y wo_deny < accuracy_score y w_deny →
      select_predictions y wo_deny w_deny = w_deny) ∧
    (accuracy_score y wo_deny = accuracy_score y w_deny →
      select_predictions y wo_deny w_deny = wo_deny) ∧
    (accuracy_score y w_deny < accuracy_score y wo_deny →
      select_predictions y wo_deny w_deny = wo_deny) := by
  unfold select_predictions
  refine ⟨fun h => if_pos h, fun h => if_neg (by rw [h]; exact lt_irrefl _),
    fun h => if_neg (not_lt_of_gt h)⟩

/-- Witness for C3 at a concrete input with exactly equal accuracies. -/
theorem c3_witness : select_predictions ["a", "b"] ["a", "x"] ["b", "b"] = ["a", "x"] :=
  (c3_strategy_selection ["a", "b"] ["a", "x"] ["b", "b"]).2.1
    (by simp [accuracy_score, List.zip, List.countP, List.countP.go])

/-- C9: the without-deny ensemble output is independent of the Deny-detector:
two runs with identical Base and Query-detector prediction sequences and
arbitrary Deny-detector prediction sequences produce the same without-deny
sequence, hence the same accuracy against the gold base labels. -/
theorem c9_without_deny_independent_of_deny
    (base deny deny' query wo w wo' w' y : List String)
    (hc : combine_predictions base deny query = some (wo, w))
    (hc' : combine_predictions base deny' query = some (wo', w')) :
    wo = wo' ∧ accuracy_score y wo = accuracy_score y wo' := by
  suffices h : wo = wo' by exact ⟨h, by rw [h]⟩
  induction base generalizing deny deny' query wo w wo' w' with
  | nil =>
    simp only [combine_predictions, Option.some.injEq, Prod.mk.injEq] at hc hc'
    rw [← hc.1, ← hc'.1]
  | cons bh bt ih =>
    cases deny with
    | nil => simp [combine_predictions] at hc
    | cons dh dt =>
      cases deny' with
      | nil => simp [combine_predictions] at hc'
      | cons dh' dt' =>
        cases query with
        | nil => simp [combine_predictions] at hc
        | cons qh qt =>
          simp only [combine_predictions] at hc hc'
          cases hrec : combine_predictions bt dt qt with
          | none => rw [hrec] at hc; simp at hc
          | some pr =>
            obtain ⟨wo1, w1⟩ := pr
            rw [hrec] at hc
            cases hrec' : combine_predictions bt dt' qt with
            | none => rw [hrec'] at hc'; simp at hc'
            | some pr' =>
              obtain ⟨wo1', w1'⟩ := pr'
              rw [hrec'] at hc'
              simp only [Option.some.injEq, Prod.mk.injEq] at hc hc'
              rw [← hc.1, ← hc'.1, ih dt dt' qt wo1 w1 wo1' w1' hrec hrec']

/-- Witness for C9 at a concrete input with differing deny sequences. -/
theorem c9_witness :
    (["support"] : List String) = ["support"] ∧
    accuracy_score ["support"] ["support"] = accuracy_score ["support"] ["support"] :=
  c9_without_deny_independent_of_deny ["support"] ["deny"] ["not_deny"] ["not_query"]
    ["support"] ["deny"] ["support"] ["support"] ["support"] (by decide) (by decide)

/-- C10: the label relabeler is idempotent: applying it with the same target
to its own output yields the same output. -/
theorem c10_one_vs_rest_idempotent (annotations : List (String × String)) (one : String) :
    generate_one_vs_rest_annotations (generate_one_vs_rest_annotations annotations one) one
      = generate_one_vs_rest_annotations annotations one := by
  unfold generate_one_vs_rest_annotations
  rw [List.map_map]
  refine List.map_congr_left (fun p _ => ?_)
  by_cases h : p.2 = one
  · simp [h]
  · simp [h, not_append_ne one]

/-- C5 (amended): per message id, the relabeler outputs exactly the target
when the gold label equals the target and `"not_" ++ target` otherwise, and
every value appearing in the output lies in the two-element set. -/
theorem c5_relabel_per_id_and_codomain (annotations : List (String × String))
    (one tweet_id : String) :
    (generate_one_vs_rest_annotations annotations one).lookup tweet_id =
      (annotations.lookup tweet_id).map (fun l => if l = one then one else "not_" ++ one) ∧
    (∀ v ∈ (generate_one_vs_rest_annotations annotations one).map Prod.snd,
      v = one ∨ v = "not_" ++ one) := by
  constructor
  · induction annotations with
    | nil => rfl
    | cons p rest ih =>
      obtain ⟨k, v⟩ := p
      simp only [generate_one_vs_rest_annotations, List.map_cons] at ih ⊢
      cases hk : tweet_id == k with
      | true =>
        simp only [List.lookup, hk, Option.map_some']
        by_cases hv : v = one
        · simp [hv]
        · simp [hv]
      | false =>
        simpa only [List.lookup, hk] using ih
  · intro x hx
    simp only [generate_one_vs_rest_annotations, List.map_map, List.mem_map] at hx
    obtain ⟨p, _, hpe⟩ := hx
    by_cases h : p.2 = one
    · left; rw [← hpe]; simp [h]
    · right; rw [← hpe]; simp [h]

/-- Witness for C5 (amended) at a concrete input. -/
theorem c5_witness :
    (generate_one_vs_rest_annotations [("1", "support")] "deny").lookup "1" =
      some "not_deny" := by
  have h := (c5_relabel_per_id_and_codomain [("1", "support")] "deny" "1").1
  rw [h]; decide

/-- C5 counterexample: when the input carries only gold labels equal to the
target, the set of values appearing in the output is the singleton of the
target, not the two-element set demanded by the claim. -/
theorem c5_counterexample :
    ((generate_one_vs_rest_annotations [("1", "deny")] "deny").map Prod.snd).toFinset ≠
      ({"deny", "not_deny"} : Finset String) := by decide

/-- A successful association-list lookup comes from an entry of the list. -/
theorem lookup_mem {k : Nat} {v : String} :
    ∀ {root_cache : List (Nat × String)}, root_cache.lookup k = some v →
      (k, v) ∈ root_cache := by
  intro root_cache
  induction root_cache with
  | nil => intro h; simp [List.lookup] at h
  | cons e rest ih =>
    obtain ⟨a, b⟩ := e
    intro h
    simp only [List.lookup] at h
    cases hk : k == a with
    | true =>
      rw [hk] at h
      simp only [Option.some.injEq] at h
      subst h
      have : k = a := by simpa using hk
      subst this
      exact List.mem_cons_self _ _
    | false =>
      rw [hk] at h
      exact List.mem_cons_of_mem _ (ih h)

/-- Unfolding lemma for `filter_go` on the empty list. -/
theorem filter_go_nil (fs : Bool) (θ : ℝ) (σ : List (Nat × String)) :
    filter_go fs θ σ [] = [] := rfl

/-- Unfolding lemma for `filter_go` on a cons cell. -/
theorem filter_go_cons (fs : Bool) (θ : ℝ) (σ : List (Nat × String)) (t : Tweet)
    (ts : List Tweet) :
    filter_go fs θ σ (t :: ts) =
      if root_tweet t = t then t :: filter_go fs θ σ ts
      else if fs ∧ (split_chars (· == ' ') (get_parseable_tweet_text t).data).length < 3 then
        filter_go fs θ (((root_tweet t).id, cached_root_text σ t) :: σ) ts
      else if tfidf_cosine_similarity (cached_root_text σ t)
          (get_parseable_tweet_text t) < θ then
        t :: filter_go fs θ (((root_tweet t).id, cached_root_text σ t) :: σ) ts
      else filter_go fs θ (((root_tweet t).id, cached_root_text σ t) :: σ) ts := rfl

/-- C8: the training filter's output is a subsequence of its input: retained
messages keep their multiplicity and relative order. -/
theorem c8_filter_preserves_order (tweets : List Tweet) (fs : Bool) (θ : ℝ) :
    (filter_tweets tweets fs θ).Sublist tweets := by
  unfold filter_tweets
  generalize ([] : List (Nat × String)) = σ
  induction tweets generalizing σ with
  | nil => rw [filter_go_nil]
  | cons t ts ih =>
    rw [filter_go_cons]
    by_cases h1 : root_tweet t = t
    · rw [if_pos h1]; exact (ih σ).cons₂ t
    · rw [if_neg h1]
      by_cases h2 : fs = true ∧ (split_chars (· == ' ') (get_parseable_tweet_text t).data).length < 3
      · rw [if_pos h2]; exact (ih _).cons t
      · rw [if_neg h2]
        by_cases h3 : tfidf_cosine_similarity (cached_root_text σ t)
            (get_parseable_tweet_text t) < θ
        · rw [if_pos h3]; exact (ih _).cons₂ t
        · rw [if_neg h3]; exact (ih _).cons t

/-- A root message is retained by `filter_go` from any cache state. -/
theorem mem_filter_go_of_root (fs : Bool) (θ : ℝ) (t : Tweet)
    (hroot : root_tweet t = t) :
    ∀ (ts : List Tweet) (σ : List (Nat × String)), t ∈ ts → t ∈ filter_go fs θ σ ts := by
  intro ts
  induction ts with
  | nil => intro σ h; simp at h
  | cons u ts ih =>
    intro σ h
    rw [filter_go_cons]
    rcases List.mem_cons.mp h with he | hm
    · subst he; rw [if_pos hroot]; exact List.mem_cons_self _ _
    · by_cases h1 : root_tweet u = u
      · rw [if_pos h1]; exact List.mem_cons_of_mem _ (ih σ hm)
      · rw [if_neg h1]
        by_cases h2 : fs = true ∧ (split_chars (· == ' ') (get_parseable_tweet_text u).data).length < 3
        · rw [if_pos h2]; exact ih _ hm
        · rw [if_neg h2]
          by_cases h3 : tfidf_cosine_similarity (cached_root_text σ u)
              (get_parseable_tweet_text u) < θ
          · rw [if_pos h3]; exact List.mem_cons_of_mem _ (ih _ hm)
          · rw [if_neg h3]; exact ih _ hm

/-- C4: for every input list and every parameter setting, the training filter
retains every message that is the root of its thread. -/
theorem c4_root_never_discarded (tweets : List Tweet) (fs : Bool) (θ : ℝ) (t : Tweet)
    (hmem : t ∈ tweets) (hroot : root_tweet t = t) :
    t ∈ filter_tweets tweets fs θ :=
  mem_filter_go_of_root fs θ t hroot tweets [] hmem

/-- Witness for C4 at a concrete input, with `filter_short` set and a zero
similarity threshold. -/
theorem c4_witness :
    Tweet.root 0 "hi" ∈ filter_tweets [Tweet.root 0 "hi"] true 0 :=
  c4_root_never_discarded [Tweet.root 0 "hi"] true 0 (Tweet.root 0 "hi")
    (List.mem_cons_self _ _) rfl

/-- A non-root message whose text splits at single spaces into fewer than 3
fields is never produced by `filter_go` when `filter_short` is set. -/
theorem not_mem_filter_go_short (θ : ℝ) (t : Tweet) (hroot : root_tweet t ≠ t)
    (hshort : (split_chars (· == ' ') (get_parseable_tweet_text t).data).length < 3) :
    ∀ (ts : List Tweet) (σ : List (Nat × String)), t ∉ filter_go true θ σ ts := by
  intro ts
  induction ts with
  | nil => intro σ h; rw [filter_go_nil] at h; simp at h
  | cons u ts ih =>
    intro σ hmem
    rw [filter_go_cons] at hmem
    by_cases h1 : root_tweet u = u
    · rw [if_pos h1] at hmem
      rcases List.mem_cons.mp hmem with he | hm
      · exact hroot (by rw [he]; exact h1)
      · exact ih σ hm
    · rw [if_neg h1] at hmem
      by_cases h2 : true = true ∧ (split_chars (· == ' ') (get_parseable_tweet_text u).data).length < 3
      · rw [if_pos h2] at hmem; exact ih _ hmem
      · rw [if_neg h2] at hmem
        by_cases h3 : tfidf_cosine_similarity (cached_root_text σ u)
            (get_parseable_tweet_text u) < θ
        · rw [if_pos h3] at hmem
          rcases List.mem_cons.mp hmem with he | hm
          · exact h2 ⟨rfl, by rw [← he]; exact hshort⟩
          · exact ih _ hm
        · rw [if_neg h3] at hmem; exact ih _ hmem

/-- C7 (amended): when `filter_short` is set, the training filter discards
every non-root message whose normalized text splits at single spaces into
fewer than 3 fields, regardless of the similarity threshold. -/
theorem c7_short_messages_discarded (tweets : List Tweet) (θ : ℝ) (t : Tweet)
    (hroot : root_tweet t ≠ t)
    (hshort : (split_chars (· == ' ') (get_parseable_tweet_text t).data).length < 3) :
    t ∉ filter_tweets tweets true θ :=
  not_mem_filter_go_short θ t hroot hshort tweets []

/-- Witness for C7 (amended) at a concrete input. -/
theorem c7_witness :
    Tweet.reply 1 "hi" (Tweet.root 0 "the root text") ∉
      filter_tweets [Tweet.root 0 "the root text",
        Tweet.reply 1 "hi" (Tweet.root 0 "the root text")] true (9 / 10) :=
  c7_short_messages_discarded _ (9 / 10) _ (by decide) (by decide)

/-- Over the two-document corpus of one document with itself, every term of
the document has inverse document frequency 1. -/
theorem idf_self (d : List (List Char)) {t : List Char} (ht : t ∈ d) :
    idf d d t = 1 := by
  unfold idf doc_freq
  rw [if_pos ht]
  norm_num

/-- The dot product of the term-weighted vector of a nonempty token list
with itself is positive. -/
theorem tfidf_dot_self_pos {d : List (List Char)} (h : d ≠ []) :
    0 < tfidf_dot d d d d := by
  obtain ⟨tok, htok⟩ := List.exists_mem_of_ne_nil _ h
  unfold tfidf_dot
  apply Finset.sum_pos'
  · intro i _
    exact mul_self_nonneg _
  · refine ⟨tok, ?_, ?_⟩
    · rw [List.toFinset_append]
      exact Finset.mem_union_left _ (List.mem_toFinset.mpr htok)
    · have h1 : tfidf_weight d d d tok = (term_count d tok : ℝ) := by
        unfold tfidf_weight
        rw [idf_self _ htok, mul_one]
      rw [h1]
      have hc : 0 < term_count d tok := by
        unfold term_count
        exact List.count_pos_iff.mpr htok
      exact mul_pos (by exact_mod_cast hc) (by exact_mod_cast hc)

/-- The modelled cosine similarity of a text with itself is 1 whenever the
text has at least one token. -/
theorem tfidf_cosine_similarity_self (s : String) (h : tokenize s ≠ []) :
    tfidf_cosine_similarity s s = 1 := by
  unfold tfidf_cosine_similarity
  have hpos := tfidf_dot_self_pos h
  rw [Real.mul_self_sqrt hpos.le]
  exact div_self hpos.ne'

/-- The modelled cosine similarity of two texts with no token in common is 0;
in particular it is 0 when either text is token-less. -/
theorem tfidf_cosine_similarity_eq_zero {s1 s2 : String}
    (h : ∀ t ∈ tokenize s1, t ∉ tokenize s2) :
    tfidf_cosine_similarity s1 s2 = 0 := by
  have hz : tfidf_dot (tokenize s1) (tokenize s2) (tokenize s1) (tokenize s2) = 0 := by
    unfold tfidf_dot
    apply Finset.sum_eq_zero
    intro t _
    by_cases h2 : t ∈ tokenize s2
    · have h1 : t ∉ tokenize s1 := fun hm => h t hm h2
      have hc : term_count (tokenize s1) t = 0 := by
        unfold term_count
        exact List.count_eq_zero.mpr h1
      simp [tfidf_weight, hc]
    · have hc : term_count (tokenize s2) t = 0 := by
        unfold term_count
        exact List.count_eq_zero.mpr h2
      simp [tfidf_weight, hc]
  unfold tfidf_cosine_similarity
  rw [hz, zero_div]

/-- The cached root text resolves to the text of the message's own root,
under consistent root identifiers and a well-formed cache. -/
theorem cached_root_text_eq {tweets0 : List Tweet} {σ : List (Nat × String)} {t : Tweet}
    (hcons : root_id_consistent tweets0) (hσ : cache_ok tweets0 σ) (ht : t ∈ tweets0) :
    cached_root_text σ t = (root_tweet t).text := by
  unfold cached_root_text
  cases h : σ.lookup (root_tweet t).id with
  | none => rfl
  | some v =>
    obtain ⟨u, hu, hid, htext⟩ := hσ _ (lookup_mem h)
    have htext' : (root_tweet u).text = v := htext
    show v = (root_tweet t).text
    rw [← htext']
    exact hcons u hu t ht hid

/-- Extending the cache with the entry written by `filter_go` preserves the
cache invariant. -/
theorem cache_ok_cons {tweets0 : List Tweet} {σ : List (Nat × String)} {u : Tweet}
    (hcons : root_id_consistent tweets0) (hσ : cache_ok tweets0 σ) (hu : u ∈ tweets0) :
    cache_ok tweets0 (((root_tweet u).id, cached_root_text σ u) :: σ) := by
  intro e he
  rcases List.mem_cons.mp he with he | he
  · subst he
    exact ⟨u, hu, rfl, (cached_root_text_eq hcons hσ hu).symm⟩
  · exact hσ e he

/-- Membership of a non-root, non-short message in the filter output is
decided exactly by the similarity of its text to its root's text. -/
theorem mem_filter_go_iff (fs : Bool) (θ : ℝ) {tweets0 : List Tweet}
    (hcons : root_id_consistent tweets0) (t : Tweet) (hroot : root_tweet t ≠ t)
    (hshort : ¬(fs = true ∧
      (split_chars (· == ' ') (get_parseable_tweet_text t).data).length < 3)) :
    ∀ (ts : List Tweet) (σ : List (Nat × String)), (∀ x ∈ ts, x ∈ tweets0) →
      cache_ok tweets0 σ →
      (t ∈ filter_go fs θ σ ts ↔
        (t ∈ ts ∧ tfidf_cosine_similarity (root_tweet t).text
          (get_parseable_tweet_text t) < θ)) := by
  intro ts
  induction ts with
  | nil =>
    intro σ _ _
    rw [filter_go_nil]
    simp
  | cons u ts ih =>
    intro σ hsub hσ
    have hu : u ∈ tweets0 := hsub u (List.mem_cons_self u ts)
    have hsub' : ∀ x ∈ ts, x ∈ tweets0 := fun x hx => hsub x (List.mem_cons_of_mem _ hx)
    have hσ' : cache_ok tweets0 (((root_tweet u).id, cached_root_text σ u) :: σ) :=
      cache_ok_cons hcons hσ hu
    rw [filter_go_cons]
    by_cases h1 : root_tweet u = u
    · rw [if_pos h1]
      have hne : t ≠ u := fun he => hroot (by rw [he]; exact h1)
      simp only [List.mem_cons, hne, false_or]
      exact ih σ hsub' hσ
    · rw [if_neg h1]
      by_cases h2 : fs = true ∧
          (split_chars (· == ' ') (get_parseable_tweet_text u).data).length < 3
      · rw [if_pos h2]
        have hne : t ≠ u := fun he => hshort (by rw [he]; exact h2)
        simp only [List.mem_cons, hne, false_or]
        exact ih _ hsub' hσ'
      · rw [if_neg h2]
        have hcached : cached_root_text σ u = (root_tweet u).text :=
          cached_root_text_eq hcons hσ hu
        by_cases h3 : tfidf_cosine_similarity (cached_root_text σ u)
            (get_parseable_tweet_text u) < θ
        · rw [if_pos h3]
          rcases eq_or_ne t u with he | hne
          · subst he
            rw [hcached] at h3
            exact iff_of_true (List.mem_cons_self _ _) ⟨List.mem_cons_self _ _, h3⟩
          · simp only [List.mem_cons, hne, false_or]
            exact ih _ hsub' hσ'
        · rw [if_neg h3]
          rcases eq_or_ne t u with he | hne
          · subst he
            rw [hcached] at h3
            rw [ih _ hsub' hσ']
            exact iff_of_false (fun hx => h3 hx.2) (fun hx => h3 hx.2)
          · simp only [List.mem_cons, hne, false_or]
            exact ih _ hsub' hσ'

/-- C6 (amended): under the data-model invariant that distinct roots carry
distinct identifiers, a non-root message surviving the short check is
discarded exactly when the modelled cosine similarity of its text to its
root's text reaches the threshold; if additionally its text is identical to
its root's and contains at least one token, the similarity is 1 and the
message is discarded whenever the threshold is at most 1. -/
theorem c6_similarity_discard (tweets : List Tweet) (fs : Bool) (θ : ℝ) (t : Tweet)
    (hcons : root_id_consistent tweets) (hmem : t ∈ tweets) (hroot : root_tweet t ≠ t)
    (hshort : ¬(fs = true ∧
      (split_chars (· == ' ') (get_parseable_tweet_text t).data).length < 3)) :
    (t ∉ filter_tweets tweets fs θ ↔
      θ ≤ tfidf_cosine_similarity (root_tweet t).text (get_parseable_tweet_text t)) ∧
    (get_parseable_tweet_text t = (root_tweet t).text →
      tokenize (get_parseable_tweet_text t) ≠ [] →
      tfidf_cosine_similarity (root_tweet t).text (get_parseable_tweet_text t) = 1 ∧
      (θ ≤ 1 → t ∉ filter_tweets tweets fs θ)) := by
  have hiff := mem_filter_go_iff fs θ hcons t hroot hshort tweets []
    (fun x hx => hx) (fun e he => absurd he (List.not_mem_nil e))
  have hmain : t ∉ filter_tweets tweets fs θ ↔
      θ ≤ tfidf_cosine_similarity (root_tweet t).text (get_parseable_tweet_text t) := by
    unfold filter_tweets
    rw [hiff]
    simp [hmem, not_lt]
  refine ⟨hmain, fun htext htok => ?_⟩
  have hsim : tfidf_cosine_similarity (root_tweet t).text
      (get_parseable_tweet_text t) = 1 := by
    rw [← htext]
    exact tfidf_cosine_similarity_self _ htok
  exact ⟨hsim, fun hθ => hmain.mpr (by rw [hsim]; exact hθ)⟩

/-- Witness for C6 (amended) at a concrete input: the reply repeats its
root's text and is discarded at the default threshold. -/
theorem c6_witness :
    Tweet.reply 1 "hello world" (Tweet.root 0 "hello world") ∉
      filter_tweets [Tweet.root 0 "hello world",
        Tweet.reply 1 "hello world" (Tweet.root 0 "hello world")] false (9 / 10) :=
  ((c6_similarity_discard
      [Tweet.root 0 "hello world", Tweet.reply 1 "hello world" (Tweet.root 0 "hello world")]
      false (9 / 10) (Tweet.reply 1 "hello world" (Tweet.root 0 "hello world"))
      (by unfold root_id_consistent; decide) (by decide) (by decide)
      (by decide)).2 rfl (by decide)).2 (by norm_num)

/-- C6 counterexample: a non-root message whose normalized text is identical
to its root's but token-less (here the empty text) is not discarded at the
default threshold 0.9 ≤ 1; the claim demands that it be discarded. -/
theorem c6_counterexample :
    get_parseable_tweet_text (Tweet.reply 1 "" (Tweet.root 0 "")) =
      (root_tweet (Tweet.reply 1 "" (Tweet.root 0 ""))).text ∧
    root_tweet (Tweet.reply 1 "" (Tweet.root 0 "")) ≠ Tweet.reply 1 "" (Tweet.root 0 "") ∧
    (9 / 10 : ℝ) ≤ 1 ∧
    Tweet.reply 1 "" (Tweet.root 0 "") ∈
      filter_tweets [Tweet.reply 1 "" (Tweet.root 0 "")] false (9 / 10) := by
  refine ⟨rfl, by decide, by norm_num, ?_⟩
  unfold filter_tweets
  rw [filter_go_cons]
  rw [if_neg (by decide : ¬(root_tweet (Tweet.reply 1 "" (Tweet.root 0 "")) =
    Tweet.reply 1 "" (Tweet.root 0 "")))]
  rw [if_neg (by simp : ¬(false = true ∧
    (split_chars (· == ' ')
      (get_parseable_tweet_text (Tweet.reply 1 "" (Tweet.root 0 ""))).data).length < 3))]
  rw [if_pos ?_]
  · exact List.mem_cons_self _ _
  · rw [show cached_root_text [] (Tweet.reply 1 "" (Tweet.root 0 "")) = "" from rfl,
      show get_parseable_tweet_text (Tweet.reply 1 "" (Tweet.root 0 "")) = "" from rfl,
      tfidf_cosine_similarity_eq_zero (by decide)]
    norm_num

/-- C7 counterexample: with `filter_short` set, a non-root message whose text
has 2 whitespace-separated tokens (fewer than 3) nevertheless survives,
because the source counts fields of a split at single spaces and the double
space yields 3 fields; being dissimilar from its root, it is retained. -/
theorem c7_counterexample :
    (whitespace_tokens (get_parseable_tweet_text
      (Tweet.reply 1 "zz  zz" (Tweet.root 0 "xx yy")))).length < 3 ∧
    root_tweet (Tweet.reply 1 "zz  zz" (Tweet.root 0 "xx yy")) ≠
      Tweet.reply 1 "zz  zz" (Tweet.root 0 "xx yy") ∧
    Tweet.reply 1 "zz  zz" (Tweet.root 0 "xx yy") ∈
      filter_tweets [Tweet.root 0 "xx yy",
        Tweet.reply 1 "zz  zz" (Tweet.root 0 "xx yy")] true (9 / 10) := by
  refine ⟨by decide, by decide, ?_⟩
  unfold filter_tweets
  rw [filter_go_cons]
  rw [if_pos (by decide : root_tweet (Tweet.root 0 "xx yy") = Tweet.root 0 "xx yy")]
  apply List.mem_cons_of_mem
  rw [filter_go_cons]
  rw [if_neg (by decide : ¬(root_tweet (Tweet.reply 1 "zz  zz" (Tweet.root 0 "xx yy")) =
    Tweet.reply 1 "zz  zz" (Tweet.root 0 "xx yy")))]
  rw [if_neg (by decide : ¬(true = true ∧
    (split_chars (· == ' ')
      (get_parseable_tweet_text
        (Tweet.reply 1 "zz  zz" (Tweet.root 0 "xx yy"))).data).length < 3))]
  rw [if_pos ?_]
  · exact List.mem_cons_self _ _
  · rw [show cached_root_text [] (Tweet.reply 1 "zz  zz" (Tweet.root 0 "xx yy")) =
        "xx yy" from rfl,
      show get_parseable_tweet_text (Tweet.reply 1 "zz  zz" (Tweet.root 0 "xx yy")) =
        "zz  zz" from rfl,
      tfidf_cosine_similarity_eq_zero (by decide)]
    norm_num

end RumourEval
